import Mathlib

/-!
Verification of `src/backend/routers/announcements.py`, the announcements
CRUD router of a school management backend.

Shallow embedding conventions:
* MongoDB ObjectIds are modelled as natural numbers; `idToString` is their
  string serialisation (`str(object_id)`) and `parseObjectId` models the
  `ObjectId(s)` constructor, which raises on malformed input (here: `none`).
* The collections are in-memory lists: the announcements collection is a list
  of `(id, document)` pairs, the teachers collection a list of usernames
  (`find_one` on `teachers_collection` is an existence check only).
* `datetime.now()` is an explicit parameter: a `Nat` tick for `created_at`
  and a `String` for the current date used by the list filter.
* Python `str.strip()` is modelled by `pyStrip` (drop whitespace from both
  ends); `datetime.strptime(s, "%Y-%m-%d")` by `validDate`, following the
  CPython `_strptime` regexes: `%Y` is exactly four digits, `%m` and `%d`
  are one or two digits, and the resulting triple must be a calendar-valid
  date accepted by the `datetime` constructor (year at least 1).
* `HTTPException` carries the status code and detail string; each handler
  returns `Except HTTPException` of its response, paired with the new store.
-/

/-- Whitespace characters stripped by Python `str.strip()` (ASCII range). -/
def isPySpace (c : Char) : Bool :=
  c = ' ' || c = '\t' || c = '\n' || c = '\r' || c = '\x0b' || c = '\x0c'

/-- Characters of a string after stripping whitespace from both ends. -/
def stripChars (l : List Char) : List Char :=
  (l.dropWhile isPySpace).rdropWhile isPySpace

/-- Model of Python `str.strip()`. -/
def pyStrip (s : String) : String :=
  String.mk (stripChars s.data)

/-- Numeric value of a digit character. -/
def digitVal (c : Char) : Nat := c.toNat - 48

/-- Value of a list of digit characters, most significant first. -/
def natOfDigits (l : List Char) : Nat :=
  l.foldl (fun a c => a * 10 + digitVal c) 0

/-- Leap year test, as used by `datetime` for February. -/
def isLeapYear (y : Nat) : Bool :=
  (y % 4 = 0 && y % 100 ≠ 0) || y % 400 = 0

/-- Number of days in a month, as validated by the `datetime` constructor. -/
def daysInMonth (y m : Nat) : Nat :=
  if m = 2 then (if isLeapYear y then 29 else 28)
  else if m = 4 ∨ m = 6 ∨ m = 9 ∨ m = 11 then 30
  else 31

/-- Split a character list as `YYYY-M?M-D?D`, following the CPython
`_strptime` regex for the format `%Y-%m-%d`: exactly four year digits, one
or two month digits, one or two day digits, hyphen separators and nothing
after the day.  Returns the numeric `(year, month, day)` triple. -/
def parseYMDChars (l : List Char) : Option (Nat × Nat × Nat) :=
  let ys := l.takeWhile Char.isDigit
  match l.dropWhile Char.isDigit with
  | '-' :: r2 =>
    let ms := r2.takeWhile Char.isDigit
    match r2.dropWhile Char.isDigit with
    | '-' :: r4 =>
      let ds := r4.takeWhile Char.isDigit
      if r4.dropWhile Char.isDigit = [] ∧ ys.length = 4 ∧
          (ms.length = 1 ∨ ms.length = 2) ∧ (ds.length = 1 ∨ ds.length = 2) then
        some (natOfDigits ys, natOfDigits ms, natOfDigits ds)
      else none
    | _ => none
  | _ => none

/-- Model of `datetime.strptime(s, "%Y-%m-%d")` succeeding: the string
matches the strptime regex and the triple is a valid `datetime` date
(month 1..12, day within the month, year at least 1). -/
def validDate (s : String) : Bool :=
  match parseYMDChars s.data with
  | some (y, m, d) =>
    1 ≤ y && 1 ≤ m && m ≤ 12 && 1 ≤ d && d ≤ daysInMonth y m
  | none => false

/-- Strict spec-side reading of the literal `YYYY-MM-DD` shape: exactly ten
characters, zero-padded four-digit year, two-digit month and two-digit day
separated by hyphens.  Used only to compare the spec wording against the
validation the code performs. -/
def matchesYYYYMMDD (s : String) : Bool :=
  match s.data with
  | [y1, y2, y3, y4, h1, m1, m2, h2, d1, d2] =>
    y1.isDigit && y2.isDigit && y3.isDigit && y4.isDigit && h1 = '-' &&
      m1.isDigit && m2.isDigit && h2 = '-' && d1.isDigit && d2.isDigit
  | _ => false

/-- Reversed decimal digits, fuelled so that reduction is structural. -/
def natDigitsRevAux : Nat → Nat → List Nat
  | _, 0 => []
  | 0, _ + 1 => []
  | fuel + 1, n + 1 => ((n + 1) % 10) :: natDigitsRevAux fuel ((n + 1) / 10)

/-- Reversed decimal digits of a natural number, least significant first. -/
def natDigitsRev (n : Nat) : List Nat := natDigitsRevAux n n

/-- Value of a reversed digit list. -/
def digitsValRev : List Nat → Nat
  | [] => 0
  | d :: r => d + 10 * digitsValRev r

/-- Character for a single decimal digit. -/
def digitChar (d : Nat) : Char := Char.ofNat (48 + d)

/-- Decimal string of a document id, modelling `str(object_id)`. -/
def idToString (n : Nat) : String :=
  if n = 0 then "0" else String.mk (((natDigitsRev n).reverse).map digitChar)

/-- Model of the `ObjectId(s)` constructor: parse a nonempty all-digit
string to the id it denotes; any other string is malformed and raises
(returns `none`). -/
def parseObjectId (s : String) : Option Nat :=
  if s.data ≠ [] ∧ s.data.all Char.isDigit then some (natOfDigits s.data) else none

/-- Bytewise lexicographic comparison of character lists, modelling the
binary string order MongoDB uses for `$gte` on strings. -/
def charListLt : List Char → List Char → Bool
  | [], [] => false
  | [], _ :: _ => true
  | _ :: _, [] => false
  | a :: as, b :: bs =>
    a.toNat < b.toNat || (a.toNat = b.toNat && charListLt as bs)

/-- Strict string order used by the Mongo query model. -/
def mongoStrLt (a b : String) : Bool := charListLt a.data b.data

/-- String `$gte` as MongoDB evaluates it. -/
def mongoStrGe (a b : String) : Bool := !(mongoStrLt a b)

/-- An announcement document, with the fields the router writes.  The id is
kept separately as the key of the collection entry. -/
structure AnnouncementDoc where
  message : String
  start_date : Option String
  expiration_date : Option String
  created_by : String
  created_at : Nat
  is_active : Bool
deriving DecidableEq, Repr

/-- Error response: HTTP status code and detail string. -/
structure HTTPException where
  status : Nat
  detail : String
deriving DecidableEq, Repr

/-- The mutable state the router touches: the announcements collection as a
list of `(id, document)` pairs, the id the store hands out next, and the
teachers collection (usernames only, used as an existence check). -/
structure Store where
  docs : List (Nat × AnnouncementDoc)
  nextId : Nat
  teachers : List String
deriving DecidableEq, Repr

/-- Decidable equality of handler results, for evaluating the model on
concrete requests. -/
instance {ε α : Type} [DecidableEq ε] [DecidableEq α] :
    DecidableEq (Except ε α) := fun x y =>
  match x, y with
  | .ok a, .ok b =>
    if h : a = b then isTrue (by rw [h]) else
      isFalse (by intro hc; injection hc; contradiction)
  | .error a, .error b =>
    if h : a = b then isTrue (by rw [h]) else
      isFalse (by intro hc; injection hc; contradiction)
  | .ok _, .error _ => isFalse (by intro hc; exact Except.noConfusion hc)
  | .error _, .ok _ => isFalse (by intro hc; exact Except.noConfusion hc)

/-- Model of `collection.find_one(by id)`: first document with the given id. -/
def findOne (oid : Nat) : List (Nat × AnnouncementDoc) → Option AnnouncementDoc
  | [] => none
  | p :: r => if p.1 = oid then some p.2 else findOne oid r

/-- Fields written by the update endpoint (`$set` document). -/
def setFields (message : String) (start_date : Option String)
    (expiration_date : String) (is_active : Bool) (d : AnnouncementDoc) :
    AnnouncementDoc :=
  { d with
    message := message
    start_date := start_date
    expiration_date := some expiration_date
    is_active := is_active }

/-- Model of `collection.update_one(by id, $set fields)`: rewrite the four
fields of the first document with the given id, leave everything else. -/
def updateOne (oid : Nat) (message : String) (start_date : Option String)
    (expiration_date : String) (is_active : Bool) :
    List (Nat × AnnouncementDoc) → List (Nat × AnnouncementDoc)
  | [] => []
  | p :: r =>
    if p.1 = oid then
      (p.1, setFields message start_date expiration_date is_active p.2) :: r
    else p :: updateOne oid message start_date expiration_date is_active r

/-- Model of `collection.delete_one(by id)`: remove the first document with
the given id, returning the remaining list and the deleted count. -/
def deleteOne (oid : Nat) : List (Nat × AnnouncementDoc) →
    List (Nat × AnnouncementDoc) × Nat
  | [] => ([], 0)
  | p :: r =>
    if p.1 = oid then (r, 1)
    else
      let q := deleteOne oid r
      (p :: q.1, q.2)

/-- The filter document built by `get_announcements`: empty when
`active_only` is false, otherwise `is_active` and (`expiration_date $gte`
the current date or `expiration_date` null/absent). -/
def announcementQuery (currentDate : String) (activeOnly : Bool)
    (d : AnnouncementDoc) : Bool :=
  if activeOnly then
    d.is_active &&
      (match d.expiration_date with
       | some e => mongoStrGe e currentDate
       | none => true)
  else true

/-- Sort relation of the list endpoint: newer `created_at` first. -/
def createdGe (a b : Nat × AnnouncementDoc) : Prop :=
  b.2.created_at ≤ a.2.created_at

instance : DecidableRel createdGe := fun _ _ => Nat.decLe _ _

instance : IsTotal (Nat × AnnouncementDoc) createdGe :=
  ⟨fun _ _ => Nat.le_total _ _⟩

instance : IsTrans (Nat × AnnouncementDoc) createdGe :=
  ⟨fun _ _ _ hab hbc => Nat.le_trans hbc hab⟩

/-- GET `/announcements`: filter (when `active_only`), sort by `created_at`
descending, serialise ids to strings. -/
def get_announcements (store : Store) (active_only : Bool)
    (currentDate : String) : List (String × AnnouncementDoc) :=
  ((store.docs.filter fun p => announcementQuery currentDate active_only p.2).insertionSort
      createdGe).map fun p => (idToString p.1, p.2)

/-- Response of a successful create: detail string, serialised new id, and
the created document. -/
structure CreateResponse where
  detail : String
  announcement_id : String
  announcement : AnnouncementDoc
deriving DecidableEq, Repr

/-- POST `/announcements`: teacher auth, message and date validation, then
insert a document with `is_active := true` and server `created_at`. -/
def create_announcement (store : Store) (now : Nat)
    (message expiration_date teacher_username : String)
    (start_date : Option String) :
    Except HTTPException (Store × CreateResponse) :=
  if teacher_username ∉ store.teachers then
    .error ⟨401, "Invalid teacher credentials"⟩
  else if message = "" ∨ pyStrip message = "" then
    .error ⟨400, "Message is required"⟩
  else if expiration_date = "" then
    .error ⟨400, "Expiration date is required"⟩
  else if (validDate expiration_date &&
      (match start_date with
       | some s => if s = "" then true else validDate s
       | none => true)) = false then
    .error ⟨400, "Invalid date format. Use YYYY-MM-DD"⟩
  else
    let doc : AnnouncementDoc :=
      { message := pyStrip message
        start_date := start_date
        expiration_date := some expiration_date
        created_by := teacher_username
        created_at := now
        is_active := true }
    .ok ({ store with
            docs := store.docs ++ [(store.nextId, doc)]
            nextId := store.nextId + 1 },
         { detail := "Announcement created successfully"
           announcement_id := idToString store.nextId
           announcement := doc })

/-- PUT `/announcements/(id)`: teacher auth, id parse, existence check,
message and date validation, then `$set` of the four payload fields. -/
def update_announcement (store : Store) (announcement_id : String)
    (message expiration_date teacher_username : String)
    (start_date : Option String) (is_active : Bool) :
    Except HTTPException (Store × String) :=
  if teacher_username ∉ store.teachers then
    .error ⟨401, "Invalid teacher credentials"⟩
  else
    match parseObjectId announcement_id with
    | none => .error ⟨400, "Invalid announcement ID"⟩
    | some oid =>
      match findOne oid store.docs with
      | none => .error ⟨404, "Announcement not found"⟩
      | some _ =>
        if message = "" ∨ pyStrip message = "" then
          .error ⟨400, "Message is required"⟩
        else if expiration_date = "" then
          .error ⟨400, "Expiration date is required"⟩
        else if (validDate expiration_date &&
            (match start_date with
             | some s => if s = "" then true else validDate s
             | none => true)) = false then
          .error ⟨400, "Invalid date format. Use YYYY-MM-DD"⟩
        else
          .ok ({ store with
                  docs := updateOne oid (pyStrip message) start_date
                    expiration_date is_active store.docs },
               "Announcement updated successfully")

/-- DELETE `/announcements/(id)`: teacher auth, id parse, existence check,
then `delete_one`; a zero deleted count raises a 500. -/
def delete_announcement (store : Store) (announcement_id : String)
    (teacher_username : String) :
    Except HTTPException (Store × String) :=
  if teacher_username ∉ store.teachers then
    .error ⟨401, "Invalid teacher credentials"⟩
  else
    match parseObjectId announcement_id with
    | none => .error ⟨400, "Invalid announcement ID"⟩
    | some oid =>
      match findOne oid store.docs with
      | none => .error ⟨404, "Announcement not found"⟩
      | some _ =>
        let q := deleteOne oid store.docs
        if q.2 = 0 then .error ⟨500, "Failed to delete announcement"⟩
        else .ok ({ store with docs := q.1 }, "Announcement deleted successfully")

/-- Status code of an error result, `none` on success. -/
def errStatus : Except HTTPException α → Option Nat
  | .error e => some e.status
  | .ok _ => none

/-- Success test for a handler result. -/
def exceptIsOk : Except HTTPException α → Bool
  | .ok _ => true
  | .error _ => false

/-- Stores reachable from an initial empty announcements collection through
successful runs of the three mutating endpoints. -/
inductive Reachable : Store → Prop where
  | init (teachers : List String) : Reachable ⟨[], 0, teachers⟩
  | step_create (s : Store) (now : Nat) (msg exp tu : String)
      (sd : Option String) (s' : Store) (r : CreateResponse) :
      Reachable s → create_announcement s now msg exp tu sd = .ok (s', r) →
      Reachable s'
  | step_update (s : Store) (id msg exp tu : String) (sd : Option String)
      (ia : Bool) (s' : Store) (m : String) :
      Reachable s → update_announcement s id msg exp tu sd ia = .ok (s', m) →
      Reachable s'
  | step_delete (s : Store) (id tu : String) (s' : Store) (m : String) :
      Reachable s → delete_announcement s id tu = .ok (s', m) →
      Reachable s'

/-! Helper lemmas about the string and id models. -/

lemma dropWhile_stripChars (l : List Char) :
    (stripChars l).dropWhile isPySpace = stripChars l := by
  rw [List.dropWhile_eq_self_iff]
  intro hl
  have hpre : stripChars l <+: l.dropWhile isPySpace := List.rdropWhile_prefix _ _
  have hne : l.dropWhile isPySpace ≠ [] := by
    intro h0
    have : stripChars l = [] := by simp [stripChars, h0]
    rw [this] at hl
    simp at hl
  have hlen : 0 < (l.dropWhile isPySpace).length :=
    Nat.lt_of_lt_of_le hl hpre.length_le
  have hget := hpre.getElem hl
  have hhead := List.head_dropWhile_not isPySpace l hne
  rw [List.head_eq_getElem_zero hne] at hhead
  simpa [List.get_eq_getElem, hget] using hhead

lemma stripChars_idem (l : List Char) :
    stripChars (stripChars l) = stripChars l := by
  show ((stripChars l).dropWhile isPySpace).rdropWhile isPySpace = stripChars l
  rw [dropWhile_stripChars]
  show ((l.dropWhile isPySpace).rdropWhile isPySpace).rdropWhile isPySpace = _
  exact List.rdropWhile_idempotent _ _

lemma pyStrip_idem (s : String) : pyStrip (pyStrip s) = pyStrip s := by
  show String.mk (stripChars (stripChars s.data)) = String.mk (stripChars s.data)
  rw [stripChars_idem]

lemma pyStrip_empty : pyStrip "" = "" := rfl

lemma digitsValRev_natDigitsRevAux :
    ∀ fuel n, n ≤ fuel → digitsValRev (natDigitsRevAux fuel n) = n := by
  intro fuel
  induction fuel with
  | zero =>
    intro n h
    have : n = 0 := Nat.le_zero.mp h
    subst this
    rfl
  | succ f ih =>
    intro n h
    cases n with
    | zero => rfl
    | succ m =>
      have h1 : (m + 1) / 10 < m + 1 := Nat.div_lt_self (Nat.succ_pos m) (by decide)
      have hle : (m + 1) / 10 ≤ f := by omega
      show digitsValRev (((m + 1) % 10) :: natDigitsRevAux f ((m + 1) / 10)) = m + 1
      rw [digitsValRev, ih _ hle]
      omega

lemma digitsValRev_natDigitsRev (n : Nat) :
    digitsValRev (natDigitsRev n) = n :=
  digitsValRev_natDigitsRevAux n n (Nat.le_refl n)

lemma natDigitsRevAux_lt :
    ∀ fuel n d, d ∈ natDigitsRevAux fuel n → d < 10 := by
  intro fuel
  induction fuel with
  | zero =>
    intro n d hd
    cases n <;> simp [natDigitsRevAux] at hd
  | succ f ih =>
    intro n d hd
    cases n with
    | zero => simp [natDigitsRevAux] at hd
    | succ m =>
      rcases List.mem_cons.mp hd with h | h
      · subst h
        exact Nat.mod_lt _ (by decide)
      · exact ih _ _ h

lemma natDigitsRev_lt (n d : Nat) (hd : d ∈ natDigitsRev n) : d < 10 :=
  natDigitsRevAux_lt n n d hd

lemma digitChar_inj (d e : Nat) (hd : d < 10) (he : e < 10)
    (h : digitChar d = digitChar e) : d = e := by
  unfold digitChar at h
  interval_cases d <;> interval_cases e <;> revert h <;> decide

lemma map_digitChar_inj :
    ∀ l1 l2 : List Nat, (∀ d ∈ l1, d < 10) → (∀ d ∈ l2, d < 10) →
      l1.map digitChar = l2.map digitChar → l1 = l2 := by
  intro l1
  induction l1 with
  | nil =>
    intro l2 _ _ h
    cases l2 with
    | nil => rfl
    | cons b t => simp at h
  | cons a t ih =>
    intro l2 h1 h2 h
    cases l2 with
    | nil => simp at h
    | cons b t2 =>
      simp only [List.map_cons, List.cons.injEq] at h
      have hab := digitChar_inj a b (h1 a (List.mem_cons_self a t))
        (h2 b (List.mem_cons_self b t2)) h.1
      have ht := ih t2 (fun d hd => h1 d (List.mem_cons_of_mem a hd))
        (fun d hd => h2 d (List.mem_cons_of_mem b hd)) h.2
      rw [hab, ht]

lemma natDigitsRev_inj (a b : Nat) (h : natDigitsRev a = natDigitsRev b) :
    a = b := by
  have := congrArg digitsValRev h
  rwa [digitsValRev_natDigitsRev, digitsValRev_natDigitsRev] at this

lemma idToString_zero_inv (b : Nat) (h : idToString b = "0") : b = 0 := by
  by_contra hb
  rw [idToString, if_neg hb] at h
  have h2 : ((natDigitsRev b).reverse).map digitChar = ['0'] := by
    have h3 := congrArg String.data h
    simpa using h3
  have hval := digitsValRev_natDigitsRev b
  cases hnd : natDigitsRev b with
  | nil =>
    rw [hnd] at hval
    exact hb hval.symm
  | cons d t =>
    cases t with
    | nil =>
      rw [hnd] at h2
      simp only [List.reverse_cons, List.reverse_nil, List.nil_append,
        List.map_cons, List.map_nil, List.cons.injEq] at h2
      have hd10 : d < 10 := natDigitsRev_lt b d (by rw [hnd]; exact List.mem_cons_self _ _)
      have hd0 : d = 0 := digitChar_inj d 0 hd10 (by decide) (by
        show digitChar d = digitChar 0
        rw [h2.1]
        rfl)
      rw [hnd, hd0] at hval
      simp [digitsValRev] at hval
      exact hb hval.symm
    | cons e t2 =>
      rw [hnd] at h2
      have hlen := congrArg List.length h2
      simp at hlen

lemma idToString_inj (a b : Nat) (h : idToString a = idToString b) : a = b := by
  by_cases ha : a = 0
  · subst ha
    rw [show idToString 0 = "0" from rfl] at h
    exact (idToString_zero_inv b h.symm).symm
  · by_cases hb : b = 0
    · subst hb
      rw [show idToString 0 = "0" from rfl] at h
      exact idToString_zero_inv a h
    · rw [idToString, if_neg ha, idToString, if_neg hb] at h
      have h2 : ((natDigitsRev a).reverse).map digitChar =
          ((natDigitsRev b).reverse).map digitChar := by
        have h3 := congrArg String.data h
        simpa using h3
      have h4 := map_digitChar_inj _ _
        (fun d hd => natDigitsRev_lt a d (List.mem_reverse.mp hd))
        (fun d hd => natDigitsRev_lt b d (List.mem_reverse.mp hd)) h2
      have h5 : natDigitsRev a = natDigitsRev b := by
        have := congrArg List.reverse h4
        simpa using this
      exact natDigitsRev_inj a b h5

/-! Helper lemmas about the collection operations. -/

lemma findOne_eq_none_iff (oid : Nat) (docs : List (Nat × AnnouncementDoc)) :
    findOne oid docs = none ↔ ∀ p ∈ docs, p.1 ≠ oid := by
  induction docs with
  | nil => simp [findOne]
  | cons p r ih =>
    by_cases hp : p.1 = oid
    · simp [findOne, hp]
    · simp [findOne, hp, ih]

lemma findOne_append_none (oid : Nat) (l1 l2 : List (Nat × AnnouncementDoc))
    (h : ∀ p ∈ l1, p.1 ≠ oid) :
    findOne oid (l1 ++ l2) = findOne oid l2 := by
  induction l1 with
  | nil => rfl
  | cons p r ih =>
    rw [List.cons_append, findOne, if_neg (h p (List.mem_cons_self p r))]
    exact ih fun q hq => h q (List.mem_cons_of_mem p hq)

lemma findOne_mem_split (oid : Nat) (docs : List (Nat × AnnouncementDoc))
    (d : AnnouncementDoc) (h : findOne oid docs = some d) :
    ∃ l1 l2, docs = l1 ++ (oid, d) :: l2 ∧ ∀ p ∈ l1, p.1 ≠ oid := by
  induction docs with
  | nil => simp [findOne] at h
  | cons p r ih =>
    by_cases hp : p.1 = oid
    · rw [findOne, if_pos hp] at h
      refine ⟨[], r, ?_, by simp⟩
      have hpd : p = (oid, d) := by
        cases p
        simp only [Option.some.injEq] at h
        simp_all
      rw [hpd]
      rfl
    · rw [findOne, if_neg hp] at h
      obtain ⟨l1, l2, heq, hall⟩ := ih h
      refine ⟨p :: l1, l2, by rw [heq]; rfl, ?_⟩
      intro q hq
      rcases List.mem_cons.mp hq with h1 | h1
      · rw [h1]; exact hp
      · exact hall q h1

lemma findOne_of_mem_nodup (docs : List (Nat × AnnouncementDoc)) (n : Nat)
    (d : AnnouncementDoc) (hmem : (n, d) ∈ docs)
    (hnd : (docs.map Prod.fst).Nodup) : findOne n docs = some d := by
  induction docs with
  | nil => simp at hmem
  | cons p r ih =>
    rcases List.mem_cons.mp hmem with h1 | h1
    · rw [findOne, if_pos (by rw [← h1])]
      rw [← h1]
    · by_cases hp : p.1 = n
      · exfalso
        have hhead : p.1 ∉ r.map Prod.fst := by
          have := hnd
          simp only [List.map_cons, List.nodup_cons] at this
          exact this.1
        apply hhead
        rw [hp]
        exact List.mem_map.mpr ⟨(n, d), h1, rfl⟩
      · rw [findOne, if_neg hp]
        refine ih h1 ?_
        have := hnd
        simp only [List.map_cons, List.nodup_cons] at this
        exact this.2

lemma deleteOne_append (oid : Nat) (l1 l2 : List (Nat × AnnouncementDoc))
    (d : AnnouncementDoc) (h : ∀ p ∈ l1, p.1 ≠ oid) :
    deleteOne oid (l1 ++ (oid, d) :: l2) = (l1 ++ l2, 1) := by
  induction l1 with
  | nil => simp [deleteOne]
  | cons p r ih =>
    rw [List.cons_append, deleteOne]
    rw [if_neg (h p (List.mem_cons_self p r))]
    rw [ih fun q hq => h q (List.mem_cons_of_mem p hq)]
    rfl

lemma deleteOne_count_one (oid : Nat) (docs : List (Nat × AnnouncementDoc))
    (d : AnnouncementDoc) (h : findOne oid docs = some d) :
    (deleteOne oid docs).2 = 1 := by
  induction docs with
  | nil => simp [findOne] at h
  | cons p r ih =>
    by_cases hp : p.1 = oid
    · simp [deleteOne, hp]
    · rw [findOne, if_neg hp] at h
      simp only [deleteOne, if_neg hp]
      exact ih h

lemma mem_deleteOne_sub (oid : Nat) (docs : List (Nat × AnnouncementDoc))
    (p : Nat × AnnouncementDoc) (h : p ∈ (deleteOne oid docs).1) : p ∈ docs := by
  induction docs with
  | nil => simp [deleteOne] at h
  | cons q r ih =>
    by_cases hq : q.1 = oid
    · simp only [deleteOne, if_pos hq] at h
      exact List.mem_cons_of_mem q h
    · simp only [deleteOne, if_neg hq] at h
      rcases List.mem_cons.mp h with h1 | h1
      · rw [h1]; exact List.mem_cons_self q r
      · exact List.mem_cons_of_mem q (ih h1)

lemma updateOne_append (oid : Nat) (m : String) (sd : Option String)
    (e : String) (ia : Bool) (l1 l2 : List (Nat × AnnouncementDoc))
    (d : AnnouncementDoc) (h : ∀ p ∈ l1, p.1 ≠ oid) :
    updateOne oid m sd e ia (l1 ++ (oid, d) :: l2) =
      l1 ++ (oid, setFields m sd e ia d) :: l2 := by
  induction l1 with
  | nil => simp [updateOne]
  | cons p r ih =>
    rw [List.cons_append, updateOne, if_neg (h p (List.mem_cons_self p r))]
    rw [ih fun q hq => h q (List.mem_cons_of_mem p hq)]
    rfl

lemma findOne_updateOne_self (oid : Nat) (m : String) (sd : Option String)
    (e : String) (ia : Bool) (docs : List (Nat × AnnouncementDoc))
    (d : AnnouncementDoc) (h : findOne oid docs = some d) :
    findOne oid (updateOne oid m sd e ia docs) = some (setFields m sd e ia d) := by
  induction docs with
  | nil => simp [findOne] at h
  | cons p r ih =>
    by_cases hp : p.1 = oid
    · rw [findOne, if_pos hp] at h
      simp only [Option.some.injEq] at h
      rw [updateOne, if_pos hp, findOne, if_pos hp, h]
    · rw [findOne, if_neg hp] at h
      rw [updateOne, if_neg hp, findOne, if_neg hp]
      exact ih h

lemma mem_updateOne_message (oid : Nat) (m : String) (sd : Option String)
    (e : String) (ia : Bool) (docs : List (Nat × AnnouncementDoc))
    (p : Nat × AnnouncementDoc) (h : p ∈ updateOne oid m sd e ia docs) :
    p ∈ docs ∨ p.2.message = m := by
  induction docs with
  | nil => simp [updateOne] at h
  | cons q r ih =>
    by_cases hq : q.1 = oid
    · simp only [updateOne, if_pos hq] at h
      rcases List.mem_cons.mp h with h1 | h1
      · right
        rw [h1]
        rfl
      · left
        exact List.mem_cons_of_mem q h1
    · simp only [updateOne, if_neg hq] at h
      rcases List.mem_cons.mp h with h1 | h1
      · left
        rw [h1]
        exact List.mem_cons_self q r
      · rcases ih h1 with h2 | h2
        · left
          exact List.mem_cons_of_mem q h2
        · right
          exact h2

/-! Claims. -/

/-- C7: a Create, Update or Delete request whose teacher_username matches no
teacher record fails with 401, and the auth check comes first: the 401 is
returned whatever the message, dates or id in the request. -/
theorem claim_C7_auth_first (store : Store) (now : Nat)
    (announcement_id message expiration_date teacher_username : String)
    (start_date : Option String) (is_active : Bool)
    (h : teacher_username ∉ store.teachers) :
    create_announcement store now message expiration_date teacher_username
        start_date = .error ⟨401, "Invalid teacher credentials"⟩ ∧
    update_announcement store announcement_id message expiration_date
        teacher_username start_date is_active =
      .error ⟨401, "Invalid teacher credentials"⟩ ∧
    delete_announcement store announcement_id teacher_username =
      .error ⟨401, "Invalid teacher credentials"⟩ := by
  refine ⟨?_, ?_, ?_⟩ <;>
    simp [create_announcement, update_announcement, delete_announcement, h]

/-- Witness for C7 at a concrete store, with an unknown teacher and an
invalid message, date and id all at once. -/
theorem claim_C7_witness :
    create_announcement ⟨[], 0, ["t1"]⟩ 0 "" "bad" "ghost" (some "x") =
      .error ⟨401, "Invalid teacher credentials"⟩ ∧
    update_announcement ⟨[], 0, ["t1"]⟩ "not-an-id" "" "bad" "ghost" (some "x")
        true = .error ⟨401, "Invalid teacher credentials"⟩ ∧
    delete_announcement ⟨[], 0, ["t1"]⟩ "not-an-id" "ghost" =
      .error ⟨401, "Invalid teacher credentials"⟩ :=
  claim_C7_auth_first ⟨[], 0, ["t1"]⟩ 0 "not-an-id" "" "bad" "ghost" (some "x")
    true (by decide)

/-- C6: under sequential execution the delete endpoint never answers 500:
the 500 branch fires only when `delete_one` removes zero rows right after
the existence check found the document, which cannot happen in a
single-request run. -/
theorem claim_C6_delete_never_500 (store : Store)
    (announcement_id teacher_username : String) :
    errStatus (delete_announcement store announcement_id teacher_username) ≠
      some 500 := by
  unfold delete_announcement
  by_cases hauth : teacher_username ∉ store.teachers
  · rw [if_pos hauth]
    simp [errStatus]
  · rw [if_neg hauth]
    cases hpar : parseObjectId announcement_id with
    | none => simp [errStatus]
    | some oid =>
      cases hf : findOne oid store.docs with
      | none => simp [hf, errStatus]
      | some d =>
        have hc : (deleteOne oid store.docs).2 ≠ 0 := by
          rw [deleteOne_count_one oid store.docs d hf]
          exact one_ne_zero
        simp [hf, errStatus, hc]

/-- C4: an Update by an existing teacher on a well-formed id that matches no
document returns 404, whatever the payload: the existence check runs before
message and date validation. -/
theorem claim_C4_update_missing_404 (store : Store)
    (announcement_id message expiration_date teacher_username : String)
    (start_date : Option String) (is_active : Bool) (oid : Nat)
    (hauth : teacher_username ∈ store.teachers)
    (hparse : parseObjectId announcement_id = some oid)
    (hmissing : ∀ p ∈ store.docs, p.1 ≠ oid) :
    update_announcement store announcement_id message expiration_date
      teacher_username start_date is_active =
      .error ⟨404, "Announcement not found"⟩ := by
  unfold update_announcement
  have hnone := (findOne_eq_none_iff oid store.docs).mpr hmissing
  rw [if_neg (not_not_intro hauth), hparse]
  simp only [hnone]

/-- Witness for C4: nonexistent id 5 with an empty message and a malformed
expiration date still yields 404. -/
theorem claim_C4_witness :
    update_announcement ⟨[], 0, ["t1"]⟩ "5" "" "2024/01/01" "t1" none true =
      .error ⟨404, "Announcement not found"⟩ :=
  claim_C4_update_missing_404 ⟨[], 0, ["t1"]⟩ "5" "" "2024/01/01" "t1" none
    true 5 (by decide) (by decide) (by decide)

/-- C1: a Create by an existing teacher with a message nonempty after
trimming and valid dates inserts exactly one new document, active, with
created_by the teacher and a server created_at, and answers with the
created record under a fresh string id distinct from all existing ids. -/
theorem claim_C1_create_inserts (store : Store) (now : Nat)
    (message expiration_date teacher_username : String)
    (start_date : Option String)
    (hauth : teacher_username ∈ store.teachers)
    (hmsg : pyStrip message ≠ "")
    (hexp : validDate expiration_date = true)
    (hstart : ∀ s, start_date = some s → validDate s = true)
    (hfresh : ∀ p ∈ store.docs, p.1 < store.nextId) :
    create_announcement store now message expiration_date teacher_username
        start_date =
      .ok ({ store with
              docs := store.docs ++ [(store.nextId,
                { message := pyStrip message
                  start_date := start_date
                  expiration_date := some expiration_date
                  created_by := teacher_username
                  created_at := now
                  is_active := true })]
              nextId := store.nextId + 1 },
           { detail := "Announcement created successfully"
             announcement_id := idToString store.nextId
             announcement :=
               { message := pyStrip message
                 start_date := start_date
                 expiration_date := some expiration_date
                 created_by := teacher_username
                 created_at := now
                 is_active := true } }) ∧
    ∀ p ∈ store.docs, idToString p.1 ≠ idToString store.nextId := by
  constructor
  · have h2 : ¬ (message = "" ∨ pyStrip message = "") := by
      rintro (h | h)
      · apply hmsg
        rw [h]
        rfl
      · exact hmsg h
    have h3 : expiration_date ≠ "" := by
      intro h
      rw [h] at hexp
      exact absurd hexp (by decide)
    unfold create_announcement
    rw [if_neg (not_not_intro hauth), if_neg h2, if_neg h3]
    cases hsd : start_date with
    | none => simp [hexp]
    | some s =>
      have hv := hstart s hsd
      by_cases hs : s = "" <;> simp [hexp, hv, hs]
  · intro p hp hcon
    exact absurd (idToString_inj _ _ hcon) (Nat.ne_of_lt (hfresh p hp))

/-- Witness for C1: creating on a store that already holds document id 0
succeeds and the fresh id 1 serialises to a different string. -/
theorem claim_C1_witness :
    exceptIsOk (create_announcement
      ⟨[(0, ⟨"old", none, some "2099-01-01", "t1", 0, true⟩)], 1, ["t1"]⟩ 5
      "Exam Friday" "2099-01-01" "t1" none) = true ∧
    idToString 0 ≠ idToString 1 := by
  have h := claim_C1_create_inserts
    ⟨[(0, ⟨"old", none, some "2099-01-01", "t1", 0, true⟩)], 1, ["t1"]⟩ 5
    "Exam Friday" "2099-01-01" "t1" none (by decide) (by decide) (by decide)
    (fun s hs => Option.noConfusion hs) (by decide)
  refine ⟨?_, ?_⟩
  · rw [h.1]
    rfl
  · exact h.2 (0, ⟨"old", none, some "2099-01-01", "t1", 0, true⟩) (by decide)

/-- C5: for an existing id (unique in the store) and an existing teacher,
deleting twice has the first call succeed and remove exactly that document,
and the second call answer 404. -/
theorem claim_C5_delete_twice (store : Store)
    (announcement_id teacher_username : String) (oid : Nat)
    (d : AnnouncementDoc)
    (hauth : teacher_username ∈ store.teachers)
    (hparse : parseObjectId announcement_id = some oid)
    (hmem : (oid, d) ∈ store.docs)
    (hnd : (store.docs.map Prod.fst).Nodup) :
    ∃ l1 l2, store.docs = l1 ++ (oid, d) :: l2 ∧
      (∀ p ∈ l1 ++ l2, p.1 ≠ oid) ∧
      delete_announcement store announcement_id teacher_username =
        .ok ({ store with docs := l1 ++ l2 }, "Announcement deleted successfully") ∧
      delete_announcement { store with docs := l1 ++ l2 } announcement_id
        teacher_username = .error ⟨404, "Announcement not found"⟩ := by
  have hfind := findOne_of_mem_nodup store.docs oid d hmem hnd
  obtain ⟨l1, l2, heq, hl1⟩ := findOne_mem_split oid store.docs d hfind
  have hl2 : ∀ p ∈ l2, p.1 ≠ oid := by
    intro p hp hcon
    have hnd2 := hnd
    rw [heq] at hnd2
    simp only [List.map_append, List.map_cons] at hnd2
    have h3 := hnd2.of_append_right
    have h4 := (List.nodup_cons.mp h3).1
    exact h4 (List.mem_map.mpr ⟨p, hp, hcon⟩)
  have hall : ∀ p ∈ l1 ++ l2, p.1 ≠ oid := by
    intro p hp
    rcases List.mem_append.mp hp with h | h
    · exact hl1 p h
    · exact hl2 p h
  refine ⟨l1, l2, heq, hall, ?_, ?_⟩
  · have hdel : deleteOne oid store.docs = (l1 ++ l2, 1) := by
      rw [heq]
      exact deleteOne_append oid l1 l2 d hl1
    unfold delete_announcement
    rw [if_neg (not_not_intro hauth), hparse]
    simp only [hfind, hdel]
    rfl
  · have hnone : findOne oid (l1 ++ l2) = none :=
      (findOne_eq_none_iff _ _).mpr hall
    unfold delete_announcement
    rw [if_neg (not_not_intro hauth), hparse]
    simp only [hnone]

/-- Witness for C5 on a one-document store: the concrete double delete. -/
theorem claim_C5_witness :
    ∃ l1 l2,
      ([(0, ⟨"m", none, some "2099-01-01", "t1", 3, true⟩)] :
          List (Nat × AnnouncementDoc)) =
        l1 ++ (0, ⟨"m", none, some "2099-01-01", "t1", 3, true⟩) :: l2 ∧
      (∀ p ∈ l1 ++ l2, p.1 ≠ 0) ∧
      delete_announcement
          ⟨[(0, ⟨"m", none, some "2099-01-01", "t1", 3, true⟩)], 1, ["t1"]⟩
          "0" "t1" =
        .ok (⟨l1 ++ l2, 1, ["t1"]⟩, "Announcement deleted successfully") ∧
      delete_announcement ⟨l1 ++ l2, 1, ["t1"]⟩ "0" "t1" =
        .error ⟨404, "Announcement not found"⟩ :=
  claim_C5_delete_twice
    ⟨[(0, ⟨"m", none, some "2099-01-01", "t1", 3, true⟩)], 1, ["t1"]⟩
    "0" "t1" 0 ⟨"m", none, some "2099-01-01", "t1", 3, true⟩
    (by decide) (by decide) (by decide) (by decide)

/-- C8: a successful Update rewrites only message, start_date,
expiration_date and is_active of the first document with the target id,
keeps its created_by and created_at, and leaves every other document and
the rest of the store unchanged. -/
theorem claim_C8_update_frame (store : Store)
    (announcement_id message expiration_date teacher_username : String)
    (start_date : Option String) (is_active : Bool) (store2 : Store)
    (rm : String)
    (h : update_announcement store announcement_id message expiration_date
      teacher_username start_date is_active = .ok (store2, rm)) :
    ∃ oid d l1 l2,
      parseObjectId announcement_id = some oid ∧
      store.docs = l1 ++ (oid, d) :: l2 ∧
      (∀ p ∈ l1, p.1 ≠ oid) ∧
      store2.docs = l1 ++ (oid,
        { message := pyStrip message
          start_date := start_date
          expiration_date := some expiration_date
          created_by := d.created_by
          created_at := d.created_at
          is_active := is_active }) :: l2 ∧
      store2.nextId = store.nextId ∧ store2.teachers = store.teachers := by
  unfold update_announcement at h
  by_cases hauth : teacher_username ∉ store.teachers
  · rw [if_pos hauth] at h
    exact absurd h (by simp)
  rw [if_neg hauth] at h
  cases hpar : parseObjectId announcement_id with
  | none =>
    simp only [hpar] at h
    exact absurd h (by simp)
  | some oid =>
    simp only [hpar] at h
    cases hf : findOne oid store.docs with
    | none =>
      simp only [hf] at h
      exact absurd h (by simp)
    | some d =>
      simp only [hf] at h
      split_ifs at h with h1 h2 h3 <;> try (exfalso; exact Except.noConfusion h)
      injection h with h4
      injection h4 with hs hrm
      obtain ⟨l1, l2, heq, hl1⟩ := findOne_mem_split oid store.docs d hf
      refine ⟨oid, d, l1, l2, rfl, heq, hl1, ?_, ?_, ?_⟩
      · rw [← hs]
        show updateOne oid (pyStrip message) start_date expiration_date
          is_active store.docs = _
        rw [heq, updateOne_append oid (pyStrip message) start_date
          expiration_date is_active l1 l2 d hl1]
        rfl
      · rw [← hs]
      · rw [← hs]

/-- Witness for C8: a concrete successful update of the only document. -/
theorem claim_C8_witness :
    ∃ oid d l1 l2,
      parseObjectId "0" = some oid ∧
      ([(0, ⟨"old", some "2024-01-01", some "2099-01-01", "t1", 3, true⟩)] :
          List (Nat × AnnouncementDoc)) = l1 ++ (oid, d) :: l2 ∧
      (∀ p ∈ l1, p.1 ≠ oid) ∧
      ([(0, ⟨"new msg", none, some "2099-01-02", "t1", 3, false⟩)] :
          List (Nat × AnnouncementDoc)) = l1 ++ (oid,
        { message := pyStrip "new msg"
          start_date := none
          expiration_date := some "2099-01-02"
          created_by := d.created_by
          created_at := d.created_at
          is_active := false }) :: l2 ∧
      (1 : Nat) = 1 ∧ (["t1"] : List String) = ["t1"] :=
  claim_C8_update_frame
    ⟨[(0, ⟨"old", some "2024-01-01", some "2099-01-01", "t1", 3, true⟩)], 1,
      ["t1"]⟩
    "0" "new msg" "2099-01-02" "t1" none false
    ⟨[(0, ⟨"new msg", none, some "2099-01-02", "t1", 3, false⟩)], 1, ["t1"]⟩
    "Announcement updated successfully" (by decide)

/-- C10: a successful Update whose start_date parameter is omitted stores
null as the document's start_date, erasing any previously stored value. -/
theorem claim_C10_update_erases_start (store : Store)
    (announcement_id message expiration_date teacher_username : String)
    (is_active : Bool) (store2 : Store) (rm : String)
    (h : update_announcement store announcement_id message expiration_date
      teacher_username none is_active = .ok (store2, rm)) :
    ∃ oid d,
      parseObjectId announcement_id = some oid ∧
      findOne oid store.docs = some d ∧
      findOne oid store2.docs = some
        { message := pyStrip message
          start_date := none
          expiration_date := some expiration_date
          created_by := d.created_by
          created_at := d.created_at
          is_active := is_active } := by
  unfold update_announcement at h
  by_cases hauth : teacher_username ∉ store.teachers
  · rw [if_pos hauth] at h
    exact absurd h (by simp)
  rw [if_neg hauth] at h
  cases hpar : parseObjectId announcement_id with
  | none =>
    simp only [hpar] at h
    exact absurd h (by simp)
  | some oid =>
    simp only [hpar] at h
    cases hf : findOne oid store.docs with
    | none =>
      simp only [hf] at h
      exact absurd h (by simp)
    | some d =>
      simp only [hf] at h
      split_ifs at h with h1 h2 h3 <;> try (exfalso; exact Except.noConfusion h)
      injection h with h4
      injection h4 with hs hrm
      refine ⟨oid, d, rfl, hf, ?_⟩
      rw [← hs]
      show findOne oid (updateOne oid (pyStrip message) none expiration_date
        is_active store.docs) = _
      rw [findOne_updateOne_self oid (pyStrip message) none expiration_date
        is_active store.docs d hf]
      rfl

/-- Witness for C10: the document previously carried a start_date; after an
update without one it holds null. -/
theorem claim_C10_witness :
    ∃ oid d,
      parseObjectId "0" = some oid ∧
      findOne oid [(0, ⟨"old", some "2024-01-01", some "2099-01-01", "t1", 3,
        true⟩)] = some d ∧
      findOne oid
          [(0, ⟨"fresh", none, some "2099-01-02", "t1", 3, true⟩)] = some
        { message := pyStrip "fresh"
          start_date := none
          expiration_date := some "2099-01-02"
          created_by := d.created_by
          created_at := d.created_at
          is_active := true } :=
  claim_C10_update_erases_start
    ⟨[(0, ⟨"old", some "2024-01-01", some "2099-01-01", "t1", 3, true⟩)], 1,
      ["t1"]⟩
    "0" "fresh" "2099-01-02" "t1" true
    ⟨[(0, ⟨"fresh", none, some "2099-01-02", "t1", 3, true⟩)], 1, ["t1"]⟩
    "Announcement updated successfully" (by decide)

/-- C9: every document a successful Create or Update writes has a message
that is non-empty and fixed by trimming (and, by construction of the
document type, a created_by attribution and an is_active flag); hence every
document of any store reachable through the endpoints satisfies this. -/
theorem claim_C9_message_invariant (s : Store) (h : Reachable s) :
    ∀ p ∈ s.docs, p.2.message ≠ "" ∧ pyStrip p.2.message = p.2.message := by
  induction h with
  | init teachers =>
    intro p hp
    simp at hp
  | step_create s now msg exp tu sd s2 r hr hok ih =>
    intro p hp
    unfold create_announcement at hok
    split_ifs at hok with h1 h2 h3 h4 <;>
      try (exfalso; exact Except.noConfusion hok)
    injection hok with h5
    injection h5 with hs hresp
    rw [← hs] at hp
    rcases List.mem_append.mp hp with hold | hnew
    · exact ih p hold
    · have hpd : p = (s.nextId,
          { message := pyStrip msg
            start_date := sd
            expiration_date := some exp
            created_by := tu
            created_at := now
            is_active := true }) := by
        simpa using hnew
      have hne : pyStrip msg ≠ "" := fun hc => h2 (Or.inr hc)
      constructor
      · rw [hpd]
        exact hne
      · rw [hpd]
        exact pyStrip_idem msg
  | step_update s id msg exp tu sd ia s2 m hr hok ih =>
    intro p hp
    unfold update_announcement at hok
    by_cases hauth : tu ∉ s.teachers
    · rw [if_pos hauth] at hok
      exact absurd hok (fun hc => Except.noConfusion hc)
    rw [if_neg hauth] at hok
    cases hpar : parseObjectId id with
    | none =>
      simp only [hpar] at hok
      exact absurd hok (fun hc => Except.noConfusion hc)
    | some oid =>
      simp only [hpar] at hok
      cases hf : findOne oid s.docs with
      | none =>
        simp only [hf] at hok
        exact absurd hok (fun hc => Except.noConfusion hc)
      | some d =>
        simp only [hf] at hok
        split_ifs at hok with h1 h2 h3 <;>
          try (exfalso; exact Except.noConfusion hok)
        injection hok with h5
        injection h5 with hs hm
        rw [← hs] at hp
        rcases mem_updateOne_message oid (pyStrip msg) sd exp ia s.docs p hp
          with hold | hmsg
        · exact ih p hold
        · have hne : pyStrip msg ≠ "" := fun hc => h1 (Or.inr hc)
          constructor
          · rw [hmsg]
            exact hne
          · rw [hmsg]
            exact pyStrip_idem msg
  | step_delete s id tu s2 m hr hok ih =>
    intro p hp
    unfold delete_announcement at hok
    by_cases hauth : tu ∉ s.teachers
    · rw [if_pos hauth] at hok
      exact absurd hok (fun hc => Except.noConfusion hc)
    rw [if_neg hauth] at hok
    cases hpar : parseObjectId id with
    | none =>
      simp only [hpar] at hok
      exact absurd hok (fun hc => Except.noConfusion hc)
    | some oid =>
      simp only [hpar] at hok
      cases hf : findOne oid s.docs with
      | none =>
        simp only [hf] at hok
        exact absurd hok (fun hc => Except.noConfusion hc)
      | some d =>
        simp only [hf] at hok
        split_ifs at hok with h1 <;>
          try (exfalso; exact Except.noConfusion hok)
        injection hok with h5
        injection h5 with hs hm
        rw [← hs] at hp
        exact ih p (mem_deleteOne_sub oid s.docs p hp)

/-- Witness for C9: after one concrete create from the empty store, the
stored message satisfies the invariant. -/
theorem claim_C9_witness :
    ("Exam Friday" : String) ≠ "" ∧
      pyStrip "Exam Friday" = "Exam Friday" := by
  have h0 : Reachable ⟨[], 0, ["t1"]⟩ := Reachable.init ["t1"]
  have hc : create_announcement ⟨[], 0, ["t1"]⟩ 7 "Exam Friday" "2099-01-01"
      "t1" none =
      .ok (⟨[(0, ⟨"Exam Friday", none, some "2099-01-01", "t1", 7, true⟩)],
        1, ["t1"]⟩,
        ⟨"Announcement created successfully", idToString 0,
          ⟨"Exam Friday", none, some "2099-01-01", "t1", 7, true⟩⟩) := by
    decide
  have h1 : Reachable ⟨[(0, ⟨"Exam Friday", none, some "2099-01-01", "t1", 7,
      true⟩)], 1, ["t1"]⟩ :=
    Reachable.step_create _ 7 "Exam Friday" "2099-01-01" "t1" none _ _ h0 hc
  have h2 := claim_C9_message_invariant _ h1
    (0, ⟨"Exam Friday", none, some "2099-01-01", "t1", 7, true⟩) (by decide)
  simpa using h2

/-- The date-validation test of create and update fails exactly when the
expiration date fails strptime or a present non-empty start date fails
strptime. -/
lemma date_check_400 (expiration_date : String) (start_date : Option String) :
    ((validDate expiration_date &&
        (match start_date with
         | some s => if s = "" then true else validDate s
         | none => true)) = false) ↔
      (validDate expiration_date = false ∨
        ∃ s, start_date = some s ∧ s ≠ "" ∧ validDate s = false) := by
  constructor
  · intro h
    rcases Bool.and_eq_false_iff.mp h with h1 | h1
    · exact Or.inl h1
    · right
      cases hsd : start_date with
      | none =>
        simp only [hsd] at h1
        exact Bool.noConfusion h1
      | some s =>
        simp only [hsd] at h1
        by_cases hs : s = ""
        · rw [if_pos hs] at h1
          simp at h1
        · rw [if_neg hs] at h1
          exact ⟨s, rfl, hs, h1⟩
  · intro h
    rcases h with h1 | ⟨s, hsd, hs, hv⟩
    · exact Bool.and_eq_false_iff.mpr (Or.inl h1)
    · refine Bool.and_eq_false_iff.mpr (Or.inr ?_)
      simp only [hsd]
      show (if s = "" then true else validDate s) = false
      rw [if_neg hs]
      exact hv

/-- C2: with active_only the list endpoint returns exactly the documents
that are active and whose expiration_date is absent or not strictly before
the current date (excluding the strictly earlier ones), sorted by creation
time descending with ids serialised to strings; without active_only it
returns all documents. -/
theorem claim_C2_list_semantics (store : Store) (currentDate : String) :
    (get_announcements store true currentDate).Perm
      ((store.docs.filter fun p =>
        p.2.is_active &&
          (match p.2.expiration_date with
           | some e => !(mongoStrLt e currentDate)
           | none => true)).map fun p => (idToString p.1, p.2)) ∧
    List.Sorted (fun a b : String × AnnouncementDoc =>
      b.2.created_at ≤ a.2.created_at) (get_announcements store true currentDate) ∧
    (get_announcements store false currentDate).Perm
      (store.docs.map fun p => (idToString p.1, p.2)) := by
  refine ⟨?_, ?_, ?_⟩
  · unfold get_announcements
    have hq : (fun p : Nat × AnnouncementDoc =>
        announcementQuery currentDate true p.2) =
        fun p => p.2.is_active &&
          (match p.2.expiration_date with
           | some e => !(mongoStrLt e currentDate)
           | none => true) := rfl
    rw [hq]
    exact (List.perm_insertionSort createdGe _).map _
  · unfold get_announcements
    exact List.pairwise_map.mpr
      (List.sorted_insertionSort createdGe
        (store.docs.filter fun p => announcementQuery currentDate true p.2))
  · unfold get_announcements
    have hq : (store.docs.filter fun p =>
        announcementQuery currentDate false p.2) = store.docs := by
      simp [announcementQuery]
    rw [hq]
    exact (List.perm_insertionSort createdGe _).map _

/-- Counterexample to C3 as stated: the string 2024-1-1 does not match the
literal YYYY-MM-DD shape, yet Create accepts it, because strptime also
admits months and days without zero padding. -/
theorem claim_C3_counterexample :
    matchesYYYYMMDD "2024-1-1" = false ∧
    exceptIsOk (create_announcement ⟨[], 0, ["t1"]⟩ 0 "Exam" "2024-1-1" "t1"
      none) = true := by
  decide

/-- C3 amended: with valid auth and message (and, for Update, an existing
well-formed id), Create and Update answer 400 exactly when the expiration
date fails the strptime %Y-%m-%d parse, or a present non-empty start date
fails it; a present empty start date is skipped by the Python truthiness
test.  The strptime parse admits exactly four year digits and one- or
two-digit calendar-valid months and days, so unpadded dates such as
2024-1-1 pass while 2024/01/01 fails. -/
theorem claim_C3_amended_strptime (store : Store) (now : Nat)
    (message expiration_date teacher_username : String)
    (start_date : Option String) (is_active : Bool)
    (hauth : teacher_username ∈ store.teachers)
    (hmsg : pyStrip message ≠ "") :
    (errStatus (create_announcement store now message expiration_date
        teacher_username start_date) = some 400 ↔
      validDate expiration_date = false ∨
        ∃ s, start_date = some s ∧ s ≠ "" ∧ validDate s = false) ∧
    (∀ announcement_id oid d,
      parseObjectId announcement_id = some oid →
      findOne oid store.docs = some d →
      (errStatus (update_announcement store announcement_id message
          expiration_date teacher_username start_date is_active) = some 400 ↔
        validDate expiration_date = false ∨
          ∃ s, start_date = some s ∧ s ≠ "" ∧ validDate s = false)) := by
  have h2 : ¬ (message = "" ∨ pyStrip message = "") := by
    rintro (h | h)
    · apply hmsg
      rw [h]
      rfl
    · exact hmsg h
  constructor
  · unfold create_announcement
    rw [if_neg (not_not_intro hauth), if_neg h2]
    by_cases hexp0 : expiration_date = ""
    · rw [if_pos hexp0]
      refine iff_of_true rfl (Or.inl ?_)
      rw [hexp0]
      decide
    · rw [if_neg hexp0]
      by_cases hC : (validDate expiration_date &&
          (match start_date with
           | some s => if s = "" then true else validDate s
           | none => true)) = false
      · rw [if_pos hC]
        exact iff_of_true rfl (date_check_400 expiration_date start_date |>.mp hC)
      · rw [if_neg hC]
        refine iff_of_false ?_ ?_
        · intro hcon
          exact Option.noConfusion hcon
        · intro hr
          exact hC ((date_check_400 expiration_date start_date).mpr hr)
  · intro announcement_id oid d hpar hf
    unfold update_announcement
    rw [if_neg (not_not_intro hauth), hpar]
    simp only [hf]
    rw [if_neg h2]
    by_cases hexp0 : expiration_date = ""
    · rw [if_pos hexp0]
      refine iff_of_true rfl (Or.inl ?_)
      rw [hexp0]
      decide
    · rw [if_neg hexp0]
      by_cases hC : (validDate expiration_date &&
          (match start_date with
           | some s => if s = "" then true else validDate s
           | none => true)) = false
      · rw [if_pos hC]
        exact iff_of_true rfl (date_check_400 expiration_date start_date |>.mp hC)
      · rw [if_neg hC]
        refine iff_of_false ?_ ?_
        · intro hcon
          exact Option.noConfusion hcon
        · intro hr
          exact hC ((date_check_400 expiration_date start_date).mpr hr)

/-- Witness for the amended C3: a slash-separated date is rejected with 400
by both Create and Update. -/
theorem claim_C3_amended_witness :
    errStatus (create_announcement
      ⟨[(0, ⟨"m", none, some "2099-01-01", "t1", 0, true⟩)], 1, ["t1"]⟩ 0
      "m" "2024/01/01" "t1" none) = some 400 ∧
    errStatus (update_announcement
      ⟨[(0, ⟨"m", none, some "2099-01-01", "t1", 0, true⟩)], 1, ["t1"]⟩ "0"
      "m" "2024/01/01" "t1" none true) = some 400 := by
  have h := claim_C3_amended_strptime
    ⟨[(0, ⟨"m", none, some "2099-01-01", "t1", 0, true⟩)], 1, ["t1"]⟩ 0
    "m" "2024/01/01" "t1" none true (by decide) (by decide)
  exact ⟨h.1.mpr (Or.inl (by decide)),
    (h.2 "0" 0 ⟨"m", none, some "2099-01-01", "t1", 0, true⟩ (by decide)
      (by decide)).mpr (Or.inl (by decide))⟩
